import Mathlib

/-!
# Verification of the deepsaber training core (`src/train/model.py`, `src/main.py`)

A shallow embedding of the model-construction, metric-derivation and
weight-transplant code of the repository, together with theorems settling the
frozen claims about it.

Conventions of the embedding:

* Python floats are idealised as real numbers (`ℝ`) where normalisation /
  cosine similarity is involved, and as rationals (`ℚ`) or a generic scalar
  type where only zero-filling and copying happen.
* Keras models are represented by the observable data the claims speak about:
  named inputs/outputs, whether the model is the `AVSModel` subclass (and so
  owns the embedding bridge), and the fixed batch size of its input layers.
* Fallible construction is `Except`: `AVSModel.__init__` raises
  `FileNotFoundError` when the FastText action-embedding artifact is absent,
  `keras.Model.set_weights` raises on a shape mismatch.
* Code of the repository that is not under `src/` (keras internals, gensim,
  `utils.functions`) is modelled from the spec where a claim needs it; each
  such definition carries a doc comment starting `Modelled from the spec:`.
-/

/-- The architectures `get_architecture_fn` (model.py lines 25-34) dispatches on
(`ModelType` of `utils.types`). -/
inductive Arch where
  | baseline
  | ddc
  | custom
  | tuneBaseline
  | tuneCLSTM
  | tuneMLSTM
deriving DecidableEq

/-- The fields of `config.training` the embedded code reads. -/
structure TrainingConfig where
  model_type : Arch
  AVS_proxy_ratio : ℚ
  batch_size : ℕ
  model_size : ℕ
  lstm_repetition : ℕ
deriving DecidableEq

/-- The fields of `config.generation` the embedded code reads. -/
structure GenerationConfig where
  batch_size : ℕ
deriving DecidableEq

/-- The fields of `config.dataset` the embedded code reads.
`action_word_model_exists` is `config.dataset.action_word_model_path.exists()`
(model.py line 70). -/
structure DatasetConfig where
  action_word_model_exists : Bool
  beat_elements : List String
deriving DecidableEq

/-- The configuration object threaded through the builders. -/
structure Config where
  training : TrainingConfig
  generation : GenerationConfig
  dataset : DatasetConfig
deriving DecidableEq

/-- The part of `BeatmapSequence` (train.sequence) the builders read: the named
input/output streams, their categorical/regression kinds, and the per-stream
shapes `seq.shapes[col]`. -/
structure BeatmapSequence where
  x_cols : List String
  y_cols : List String
  categorical_cols : List String
  regression_cols : List String
  shapes : String → List ℕ

/-- Construction failure: `AVSModel.__init__` raises `FileNotFoundError`
("Could not find FastText action embeddings...", model.py lines 70-75);
the spec calls this `MissingVocabularyError`. -/
inductive BuildError where
  | missingVocabulary
deriving DecidableEq

/-- The observable data of a built (and compiled) keras model: its named
inputs and outputs, whether it is the `AVSModel` subclass (which owns the
embedding bridge), and the fixed batch size of its input layers (`none` for a
dynamic batch dimension). -/
structure BuiltModel where
  inputNames : List String
  outputNames : List String
  isAVS : Bool
  batchSize : Option ℕ
deriving DecidableEq

/-- The output dictionary keys a builder creates: every `col in seq.y_cols`
that is categorical or regression gets one output head (e.g. model.py
lines 212-220). -/
def outputCols (seq : BeatmapSequence) : List String :=
  seq.y_cols.filter fun c =>
    seq.categorical_cols.contains c || seq.regression_cols.contains c

/-- The input keys of builders that branch on the stream kind
(`custom_model` lines 302-311, `clstm_tuning_model` lines 414-433): an
`x_col` that is neither categorical nor regression gets no input layer. -/
def kindedInputCols (seq : BeatmapSequence) : List String :=
  seq.x_cols.filter fun c =>
    seq.categorical_cols.contains c || seq.regression_cols.contains c

/-- `AVSModel.__init__` (model.py lines 57-80): checks that the FastText
action-embedding artifact exists, raising `FileNotFoundError` when it does
not; on success the vocabulary (the embedding bridge) is loaded and the
model is an `AVSModel`. -/
def mkAVSModel (cfg : Config) (ins outs : List String) (bs : Option ℕ) :
    Except BuildError BuiltModel :=
  if cfg.dataset.action_word_model_exists then
    .ok ⟨ins, outs, true, bs⟩
  else
    .error .missingVocabulary

/-- `baseline_model` (model.py lines 191-238): inputs for every `x_col`,
outputs per kinded `y_col`, batch size `config.generation.batch_size` iff
stateful, and an `AVSModel` exactly when neither stateful nor
`AVS_proxy_ratio == 0`. -/
def baseline_model (seq : BeatmapSequence) (stateful : Bool) (cfg : Config) :
    Except BuildError BuiltModel :=
  let bs : Option ℕ := if stateful then some cfg.generation.batch_size else none
  let ins := seq.x_cols
  let outs := outputCols seq
  if stateful || cfg.training.AVS_proxy_ratio = 0 then
    .ok ⟨ins, outs, false, bs⟩
  else
    mkAVSModel cfg ins outs bs

/-- `ddc_model` (model.py lines 241-290): same named I/O, batch-size and
model-class selection as `baseline_model` (extra dropout layers change no
observable of the embedding). -/
def ddc_model (seq : BeatmapSequence) (stateful : Bool) (cfg : Config) :
    Except BuildError BuiltModel :=
  let bs : Option ℕ := if stateful then some cfg.generation.batch_size else none
  let ins := seq.x_cols
  let outs := outputCols seq
  if stateful || cfg.training.AVS_proxy_ratio = 0 then
    .ok ⟨ins, outs, false, bs⟩
  else
    mkAVSModel cfg ins outs bs

/-- `custom_model` (model.py lines 293-393): inputs only for categorical or
regression `x_cols`; model-class selection as in `baseline_model`
(lines 358-365). -/
def custom_model (seq : BeatmapSequence) (stateful : Bool) (cfg : Config) :
    Except BuildError BuiltModel :=
  let bs : Option ℕ := if stateful then some cfg.generation.batch_size else none
  let ins := kindedInputCols seq
  let outs := outputCols seq
  if stateful || cfg.training.AVS_proxy_ratio = 0 then
    .ok ⟨ins, outs, false, bs⟩
  else
    mkAVSModel cfg ins outs bs

/-- The inner `build_model` of `clstm_tuning_model` (model.py lines 396-528):
kinded inputs, model-class selection at lines 496-503 (its `use_avs_model`
parameter is never read). -/
def clstm_tuning_model (seq : BeatmapSequence) (stateful : Bool) (cfg : Config) :
    Except BuildError BuiltModel :=
  let bs : Option ℕ := if stateful then some cfg.generation.batch_size else none
  let ins := kindedInputCols seq
  let outs := outputCols seq
  if stateful || cfg.training.AVS_proxy_ratio = 0 then
    .ok ⟨ins, outs, false, bs⟩
  else
    mkAVSModel cfg ins outs bs

/-- The inner `build_model` of `multi_lstm_tuning_model` (model.py
lines 531-607): inputs for every `x_col`; at lines 575-585 an `AVSModel` is
built only when not stateful, `AVS_proxy_ratio ≠ 0` and `use_avs_model` is
set (otherwise a plain `keras.Model`). -/
def multi_lstm_tuning_model (seq : BeatmapSequence) (stateful : Bool)
    (cfg : Config) (use_avs_model : Bool) : Except BuildError BuiltModel :=
  let bs : Option ℕ := if stateful then some cfg.generation.batch_size else none
  let ins := seq.x_cols
  let outs := outputCols seq
  if stateful || cfg.training.AVS_proxy_ratio = 0 then
    .ok ⟨ins, outs, false, bs⟩
  else if use_avs_model then
    mkAVSModel cfg ins outs bs
  else
    .ok ⟨ins, outs, false, bs⟩

/-- The inner `build_model` of `trivial_tuning_model` (model.py
lines 610-655): always a plain `keras.Model` (lines 641-645). -/
def trivial_tuning_model (seq : BeatmapSequence) (stateful : Bool)
    (cfg : Config) : Except BuildError BuiltModel :=
  let bs : Option ℕ := if stateful then some cfg.generation.batch_size else none
  let ins := seq.x_cols
  let outs := outputCols seq
  .ok ⟨ins, outs, false, bs⟩

/-- `get_architecture_fn` (model.py lines 25-34) followed by the call of the
architecture function (for the tuning architectures: of the returned
`build_model` closure, whose `use_avs_model` argument is the last
parameter). -/
def buildArch : Arch → BeatmapSequence → Bool → Config → Bool →
    Except BuildError BuiltModel
  | .baseline, seq, st, cfg, _ => baseline_model seq st cfg
  | .ddc, seq, st, cfg, _ => ddc_model seq st cfg
  | .custom, seq, st, cfg, _ => custom_model seq st cfg
  | .tuneBaseline, seq, st, cfg, _ => trivial_tuning_model seq st cfg
  | .tuneCLSTM, seq, st, cfg, _ => clstm_tuning_model seq st cfg
  | .tuneMLSTM, seq, st, cfg, uam => multi_lstm_tuning_model seq st cfg uam

/-- A weight tensor: its shape and its (flattened) values. -/
structure Tensor where
  shape : List ℕ
  data : List ℚ
deriving DecidableEq

/-- The trained model `save_model` receives: its named I/O and its weight
list, in keras `get_weights()` order. -/
structure TrainedModel where
  inputNames : List String
  outputNames : List String
  weights : List Tensor
deriving DecidableEq

/-- The keras mixed-precision policy (`keras.mixed_precision.experimental
.set_policy`, model.py line 659 / main.py line 91). -/
inductive PrecisionPolicy where
  | float32
  | mixed_float16
deriving DecidableEq

/-- Weight-transplant failure; the spec calls it `WeightShapeMismatchError`. -/
inductive TransplantError where
  | weightShapeMismatch
deriving DecidableEq

/-- Modelled from the spec: `keras.Model.set_weights` (keras itself is not
under `src/`) — "copy every weight tensor from `M` to `M'` by matching
name/shape; fails with `WeightShapeMismatchError` if any corresponding tensor
shapes differ" (§4.4).  `targetShapes` are the shapes of the receiving model's
weight list (position `i` of both lists belongs to the layer of the same
name, both models being built by the same architecture function). -/
def set_weights (targetShapes : List (List ℕ)) (ws : List Tensor) :
    Except TransplantError (List Tensor) :=
  if ws.map Tensor.shape = targetShapes then .ok ws
  else .error .weightShapeMismatch

/-- `keras.Model(model.inputs, model.outputs)` (model.py line 664): the plain
archival artifact, which "drops non-serializable metrics, etc." — same named
I/O, none of the `AVSModel` metric machinery. -/
structure PlainArtifact where
  inputNames : List String
  outputNames : List String
  hasAVSMachinery : Bool
deriving DecidableEq

/-- Everything `save_model` (model.py lines 658-668) produces or mutates: the
precision policy after the call, the two saved artifacts, and the outcome of
the weight copy `stateful_model.set_weights(plain_model.get_weights())`. -/
structure SaveResult where
  policyAfter : PrecisionPolicy
  plainModel : PlainArtifact
  statefulModel : Except BuildError BuiltModel
  copiedWeights : Except TransplantError (List Tensor)

/-- `config` after `save_model` assigns `config.training.batch_size = 1`
(model.py line 660 / main.py line 132). -/
def withTrainingBatchSize1 (cfg : Config) : Config :=
  { cfg with training := { cfg.training with batch_size := 1 } }

/-- `save_model` (model.py lines 658-668): sets the float32 policy, sets
`config.training.batch_size = 1`, rebuilds the architecture with
`stateful=True` (for tuning architectures the closure is applied with
`use_avs_model=True`), wraps the trained model into a plain `keras.Model`,
and copies the trained weights into the stateful model.  `shapesOf` stands
for the weight shapes keras stores inside the freshly built stateful model
(they are a function of the architecture, the sequence and the config; the
claims instantiate it with `baseline_weight_shapes`). -/
def save_model (shapesOf : BeatmapSequence → Config → List (List ℕ))
    (model : TrainedModel) (train_seq : BeatmapSequence) (cfg : Config) :
    SaveResult :=
  let cfg' := withTrainingBatchSize1 cfg
  { policyAfter := .float32
    plainModel := ⟨model.inputNames, model.outputNames, false⟩
    statefulModel := buildArch cfg'.training.model_type train_seq true cfg' true
    copiedWeights := set_weights (shapesOf train_seq cfg') model.weights }

/-- The keras weight shapes of one `layers.LSTM(units)` applied to a stream of
per-step width `inDim`: kernel, recurrent kernel, bias.  None of them depends
on the batch size or on `stateful`. -/
def lstmWeightShapes (inDim units : ℕ) : List (List ℕ) :=
  [[inDim, 4 * units], [units, 4 * units], [4 * units]]

/-- The keras weight shapes of one `layers.Dense(outDim)` applied to a stream
of per-step width `inDim`. -/
def denseWeightShapes (inDim outDim : ℕ) : List (List ℕ) :=
  [[inDim, outDim], [outDim]]

/-- The per-step width of the concatenation of the input streams
(`forgiving_concatenate(..., axis=-1)`, model.py line 205): the sum of the
last shape dimensions of the `x_cols`. -/
def concatWidth (seq : BeatmapSequence) : ℕ :=
  (seq.x_cols.map fun c => (seq.shapes c).getLastD 0).sum

/-- The weight shapes of the model `baseline_model` builds (model.py
lines 199-220), in keras `get_weights()` order: `lstm_repetition` LSTM layers
of `model_size` units (the first fed by the concatenated inputs, the rest by
the previous LSTM), then one time-distributed Dense per output column.
Neither the `stateful` flag nor any batch size occurs: a batch-trained and a
stateful baseline model of the same sequence and config have identical weight
shapes. -/
def baseline_weight_shapes (seq : BeatmapSequence) (cfg : Config) :
    List (List ℕ) :=
  let units := cfg.training.model_size
  let w := concatWidth seq
  let lstms := (List.range cfg.training.lstm_repetition).flatMap fun i =>
    lstmWeightShapes (if i = 0 then w else units) units
  let lastDim := if cfg.training.lstm_repetition = 0 then w else units
  let denses := (outputCols seq).flatMap fun c =>
    denseWeightShapes lastDim ((seq.shapes c).getLastD 0)
  lstms ++ denses

/-- Modelled from the spec: a recurrent cell (keras `layers.LSTM` with
`stateful=True` is not under `src/`) — "each recurrent cell retains its
hidden state across successive calls" (§4.4); the weights are part of
`step`. -/
structure RecCell (σ ι ω : Type) where
  init : σ
  step : σ → ι → σ × ω

/-- Modelled from the spec: running a recurrent cell over one window of
inputs from a given state, returning the final state and the per-step
outputs (`return_sequences=True`). -/
def runWindow {σ ι ω : Type} (c : RecCell σ ι ω) : σ → List ι → σ × List ω
  | s, [] => (s, [])
  | s, x :: xs =>
    let so := c.step s x
    let rest := runWindow c so.1 xs
    (rest.1, so.2 :: rest.2)

/-- Modelled from the spec: one call of the batch-trained model on a whole
window starts from the fresh (zeroed) state. -/
def batchCall {σ ι ω : Type} (c : RecCell σ ι ω) (xs : List ι) : List ω :=
  (runWindow c c.init xs).2

/-- Modelled from the spec: the stateful generator fed one fixed single-step
input `n` successive times, the hidden state carried from call to call with
no reset in between. -/
def statefulFeed {σ ι ω : Type} (c : RecCell σ ι ω) : σ → ℕ → ι → σ × List ω
  | s, 0, _ => (s, [])
  | s, n + 1, x =>
    let so := runWindow c s [x]
    let rest := statefulFeed c so.1 n x
    (rest.1, so.2 ++ rest.2)

/-- The `BeatmapSequence` of the spec's transplant example (§8): one input
stream `audio` of width 4, one categorical output stream `note` of width
12. -/
def seqAudioNote : BeatmapSequence where
  x_cols := ["audio"]
  y_cols := ["note"]
  categorical_cols := ["note"]
  regression_cols := []
  shapes := fun c => if c = "audio" then [1, 1, 4]
    else if c = "note" then [1, 1, 12] else []

/-- `AVSModel.word2word_vec` (model.py lines 144-151), generic in the scalar
type of the vectors.  `word` is the 2-D numpy array of action words
(`len(word)` rows); `lookup` is the gensim word-vector model
(`self.word_model[token]`, `None` for a missing key).  The source computes
`use_len = int(self.config.training.AVS_proxy_ratio * len(word)) + 1`, looks
up the flattened first `use_len` rows, and on a `KeyError` (any token
missing) returns `np.zeros((np.dot(*use_word.shape), D))` — `D` being the
embedding dimensionality `self.word_model.vectors.shape[-1]` and
`np.dot(*use_word.shape)` the number of looked-up tokens.  (`int` truncation
and `⌊·⌋.toNat` agree on the nonnegative ratios the claims quantify over.) -/
def word2word_vec {α : Type} [Zero α] (ratio : ℚ) (D : ℕ)
    (lookup : String → Option (List α)) (word : List (List String)) :
    List (List α) :=
  let use_len := (⌊ratio * (word.length : ℚ)⌋).toNat + 1
  let use_word := word.take use_len
  let flat := use_word.flatten
  if flat.all fun t => (lookup t).isSome then
    flat.map fun t => (lookup t).getD []
  else
    List.replicate (use_word.length * (use_word.headD []).length)
      (List.replicate D (0 : α))

/-- The dot product of two flat float vectors (trailing elements of the longer
vector are ignored, as `tf.matmul` never meets ragged data). -/
def dot : List ℝ → List ℝ → ℝ
  | a :: as, b :: bs => a * b + dot as bs
  | _, _ => 0

/-- The sum of squares of a vector. -/
def sumSq (v : List ℝ) : ℝ := dot v v

/-- `tf.nn.l2_normalize(v, axis=-1)`: `v` divided by its Euclidean norm; a
zero vector stays the zero vector. -/
noncomputable def l2normalize (v : List ℝ) : List ℝ :=
  if sumSq v = 0 then v else v.map fun x => x / Real.sqrt (sumSq v)

/-- `self.embeddings` (model.py lines 78-79): two zero rows (index 0 the MASK
token, index 1 UNK) prepended to the word model's vector table; `D` is
`self.word_model.vectors.shape[-1]`. -/
def avsEmbeddings (wvs : List (List ℝ)) (D : ℕ) : List (List ℝ) :=
  List.replicate 2 (List.replicate D (0 : ℝ)) ++ wvs

/-- `AVSModel.word_vec2word` (model.py lines 153-158): L2-normalise the input
rows and multiply with the transposed pre-normalised embedding table
(`self.normed_embeddings`, line 80) — each output row holds the cosine
similarity of one input vector with every vocabulary row.  Note the source
returns this full score matrix; the commented-out lines 159-161 (argmax /
pseudo-probability) are dead. -/
noncomputable def word_vec2word (wvs : List (List ℝ)) (D : ℕ)
    (word_vec : List (List ℝ)) : List (List ℝ) :=
  word_vec.map fun row =>
    (avsEmbeddings wvs D).map fun e => dot (l2normalize row) (l2normalize e)

/-- The largest element of a float list (`0` for the empty list, which never
arises: the embedding table always has its two reserved rows). -/
def listMax : List ℝ → ℝ
  | [] => 0
  | [x] => x
  | x :: y :: t => max x (listMax (y :: t))

/-- `tf.argmax` over one row: the index of the first occurrence of the
maximum (TensorFlow returns the smallest index on ties). -/
noncomputable def argmaxIdx : List ℝ → ℕ
  | [] => 0
  | [_] => 0
  | x :: y :: t => if listMax (y :: t) ≤ x then 0 else argmaxIdx (y :: t) + 1

/-- `embedding_ops.embedding_lookup_v2(self.embeddings, i)` for one id. -/
def embeddingLookup (table : List (List ℝ)) (i : ℕ) : List ℝ :=
  table.getD i []

/-- The spec's round trip through the discrete channel (§8):
`idsToVectors(vectorsToSimilarity(v).argmax())` — in the source,
`word_vec2word` on the single row `v`, `tf.argmax` over the scores,
`embedding_lookup` back into `self.embeddings`. -/
noncomputable def avsRoundtrip (wvs : List (List ℝ)) (D : ℕ) (v : List ℝ) :
    List ℝ :=
  embeddingLookup (avsEmbeddings wvs D)
    (argmaxIdx ((word_vec2word wvs D [v]).headD []))

/-- The categorical (one-hot) encoding of the discrete index `i` over `n`
classes, following the spec's words: this is how "the top-1 index" is
represented in a `word_id` tensor (whose last axis ranges over classes). -/
def oneHot (n i : ℕ) : List ℝ :=
  (List.range n).map fun j => if j = i then 1 else 0

/-- One value of the target/prediction dictionaries of a train/test step: a
rank-2 (`[N, d]`) or rank-3 (`[batch, time, d]`) float tensor. -/
inductive TVal where
  | t2 (m : List (List ℝ))
  | t3 (m : List (List (List ℝ)))

/-- `drop_batch` (model.py lines 37-40): reshape to
`[prod(shape[:-1]), shape[-1]]` — a rank-3 tensor has its leading batch/time
axes flattened into one, a rank-2 tensor is unchanged. -/
def dropBatch : TVal → List (List ℝ)
  | .t2 m => m
  | .t3 m => m.flatten

/-- One step's target (or prediction) dictionary, as `update_metrics` sees
it: the two action representations it branches on, and the remaining keys
(the per-attribute beat-element columns, regression outputs, ...). -/
structure StepDict where
  word_id : Option TVal
  word_vec : Option TVal
  others : List String

/-- `y.keys()`. -/
def StepDict.keys (y : StepDict) : List String :=
  (if y.word_id.isSome then ["word_id"] else []) ++
    (if y.word_vec.isSome then ["word_vec"] else []) ++ y.others

/-- `set(y.keys()) >= set(self.config.dataset.beat_elements)` (model.py
line 126). -/
def spansBeatElements (beat_elements : List String) (y : StepDict) : Bool :=
  beat_elements.all fun b => y.keys.contains b

/-- The immutable data `AVSModel`'s metric derivation closes over: the word
model's vector table `wvs` and dimensionality `D` (`self.embeddings` is
`avsEmbeddings wvs D`), the proxy ratio, the declared beat elements, the
external gensim lookup, and `y2action_word` of `utils.functions` — the
latter is not under `src/`, so it stays an abstract parameter mapping an
output dictionary to its 2-D array of action words. -/
structure AVSEnv where
  wvs : List (List ℝ)
  D : ℕ
  proxyRatio : ℚ
  beat_elements : List String
  lookup : String → Option (List ℝ)
  y2action_word : StepDict → List (List String)

/-- `tf.argmax(w, axis=-1)` followed by `embedding_lookup_v2` on the last
axis of a rank-2 or rank-3 `word_id` tensor (model.py lines 164-166). -/
noncomputable def argmaxLookup (table : List (List ℝ)) : TVal → TVal
  | .t2 m => .t2 (m.map fun row => embeddingLookup table (argmaxIdx row))
  | .t3 m => .t3 (m.map fun mat => mat.map fun row =>
      embeddingLookup table (argmaxIdx row))

/-- `AVSModel.avs_embedding` (model.py lines 163-170): with `word_id` present,
argmax over the class axis and embedding lookup; otherwise the fallback path
through `y2action_word` and `word2word_vec` (via `tf.numpy_function`,
returning a rank-2 float tensor). -/
noncomputable def avs_embedding (env : AVSEnv) (y : StepDict) : TVal :=
  match y.word_id with
  | some w => argmaxLookup (avsEmbeddings env.wvs env.D) w
  | none => .t2 (word2word_vec env.proxyRatio env.D env.lookup
      (env.y2action_word y))

/-- What `AVSModel.update_metrics` leaves behind: the two dictionaries after
representation derivation, and whether the vector-space / discrete-space
metric banks were updated (model.py lines 131-138: they are updated exactly
when the respective key is present after derivation). -/
structure UpdateResult where
  y : StepDict
  y_pred : StepDict
  vectorMetricsUpdated : Bool
  idMetricsUpdated : Bool

/-- `AVSModel.update_metrics` (model.py lines 119-138).  The derivation
branches read only the target dictionary's keys (plus `train`): if `word_vec`
is present and `word_id` absent, `word_id` is set on both dictionaries to
`word_vec2word(drop_batch(...['word_vec']))`; else if `word_id` is present —
or the keys span all declared beat elements and this is not a training
step — and `word_vec` is absent, `word_vec` is set on both via
`avs_embedding`.  (The source indexes `y_pred['word_vec']` directly in the
first branch; the embedding reads it with a `.getD` default, the claims
always supplying it.) -/
noncomputable def update_metrics (env : AVSEnv) (train : Bool)
    (y y_pred : StepDict) : UpdateResult :=
  let yy :=
    if y.word_vec.isSome && !y.word_id.isSome then
      ({ y with word_id := some (.t2 (word_vec2word env.wvs env.D
          (dropBatch (y.word_vec.getD (.t2 []))))) },
       { y_pred with word_id := some (.t2 (word_vec2word env.wvs env.D
          (dropBatch (y_pred.word_vec.getD (.t2 []))))) })
    else if (y.word_id.isSome ||
        (spansBeatElements env.beat_elements y && !train)) &&
        !y.word_vec.isSome then
      ({ y with word_vec := some (avs_embedding env y) },
       { y_pred with word_vec := some (avs_embedding env y_pred) })
    else
      (y, y_pred)
  { y := yy.1
    y_pred := yy.2
    vectorMetricsUpdated := yy.1.word_vec.isSome
    idMetricsUpdated := yy.1.word_id.isSome }

theorem statefulFeed_eq_runWindow {σ ι ω : Type} (c : RecCell σ ι ω)
    (s : σ) (n : ℕ) (x : ι) :
    statefulFeed c s n x = runWindow c s (List.replicate n x) := by
  induction n generalizing s with
  | zero => rfl
  | succ k ih =>
    simp only [statefulFeed, runWindow, List.replicate, ih,
      List.singleton_append]

theorem buildArch_ok_avs (a : Arch) (seq : BeatmapSequence) (st : Bool)
    (cfg : Config) (uam : Bool) (m : BuiltModel)
    (h : buildArch a seq st cfg uam = .ok m) (hAVS : m.isAVS = true) :
    st = false ∧ cfg.training.AVS_proxy_ratio ≠ 0 := by
  cases a <;> cases st <;>
    simp only [buildArch, baseline_model, ddc_model, custom_model,
      clstm_tuning_model, multi_lstm_tuning_model, trivial_tuning_model,
      mkAVSModel] at h <;>
    split_ifs at h with h1 <;>
    try (injection h with h; subst h; simp at hAVS)
  all_goals try simp at h1
  all_goals
    refine ⟨rfl, fun h0 => ?_⟩
  all_goals simp [h0] at h1

theorem buildArch_stateful_plain (a : Arch) (seq : BeatmapSequence)
    (cfg : Config) (uam : Bool) :
    ∃ m, buildArch a seq true cfg uam = .ok m ∧ m.isAVS = false := by
  cases a <;>
    simp [buildArch, baseline_model, ddc_model, custom_model,
      clstm_tuning_model, multi_lstm_tuning_model, trivial_tuning_model]

theorem baseline_ok_names (seq : BeatmapSequence) (st : Bool) (cfg : Config)
    (m : BuiltModel) (h : baseline_model seq st cfg = .ok m) :
    m.inputNames = seq.x_cols ∧ m.outputNames = outputCols seq := by
  simp only [baseline_model, mkAVSModel] at h
  split_ifs at h <;> (injection h with h; subst h; exact ⟨rfl, rfl⟩)

theorem buildArch_ok_no_artifact (a : Arch) (seq : BeatmapSequence)
    (st : Bool) (cfg : Config) (uam : Bool) (m : BuiltModel)
    (h : cfg.dataset.action_word_model_exists = false)
    (hm : buildArch a seq st cfg uam = .ok m) : m.isAVS = false := by
  cases a <;> cases st <;>
    simp only [buildArch, baseline_model, ddc_model, custom_model,
      clstm_tuning_model, multi_lstm_tuning_model, trivial_tuning_model,
      mkAVSModel, h] at hm <;>
    split_ifs at hm <;>
    first
      | (injection hm with hm; subst hm; rfl)
      | contradiction

theorem baseline_weight_shapes_batch_size_invariant (seq : BeatmapSequence)
    (cfg : Config) :
    baseline_weight_shapes seq (withTrainingBatchSize1 cfg) =
      baseline_weight_shapes seq cfg := rfl

/-- C7: for every architecture builder and every configuration with
`AVS_proxy_ratio = 0`, construction succeeds with a plain `keras.Model`
(never the `AVSModel` that loads the vocabulary artifact) — the config's
`action_word_model_exists` is arbitrary here, so in particular no
missing-vocabulary error is raised when the artifact is absent. -/
theorem proxy_ratio_zero_builds_plain_model (a : Arch) (seq : BeatmapSequence)
    (st uam : Bool) (cfg : Config)
    (h : cfg.training.AVS_proxy_ratio = 0) :
    ∃ m, buildArch a seq st cfg uam = .ok m ∧ m.isAVS = false := by
  cases a <;> cases st <;>
    simp [buildArch, baseline_model, ddc_model, custom_model,
      clstm_tuning_model, multi_lstm_tuning_model, trivial_tuning_model, h]

/-- Witness for C7: a concrete zero-ratio config whose vocabulary artifact is
absent still builds a plain model. -/
theorem proxy_ratio_zero_builds_plain_model_witness :
    ∃ m, buildArch .baseline seqAudioNote false
        ⟨⟨.baseline, 0, 1, 2, 1⟩, ⟨1⟩, ⟨false, ["note"]⟩⟩ false = .ok m ∧
      m.isAVS = false :=
  proxy_ratio_zero_builds_plain_model .baseline seqAudioNote false false
    ⟨⟨.baseline, 0, 1, 2, 1⟩, ⟨1⟩, ⟨false, ["note"]⟩⟩ rfl

/-- C10: for every architecture builder, a stateful build always returns a
plain model (no AVS machinery) whatever the proxy ratio, and any build that
does return the `AVSModel` subclass was non-stateful with a strictly positive
proxy ratio (ratios being nonnegative fractions). -/
theorem avs_only_nonstateful_positive_ratio (a : Arch) (seq : BeatmapSequence)
    (st uam : Bool) (cfg : Config)
    (h : 0 ≤ cfg.training.AVS_proxy_ratio) :
    (st = true → ∃ m, buildArch a seq st cfg uam = .ok m ∧ m.isAVS = false) ∧
    ∀ m, buildArch a seq st cfg uam = .ok m → m.isAVS = true →
      st = false ∧ 0 < cfg.training.AVS_proxy_ratio := by
  constructor
  · rintro rfl
    exact buildArch_stateful_plain a seq cfg uam
  · intro m hm hAVS
    obtain ⟨h1, h2⟩ := buildArch_ok_avs a seq st cfg uam m hm hAVS
    exact ⟨h1, lt_of_le_of_ne h (Ne.symm h2)⟩

/-- Witness for C10: a concrete stateful build with positive ratio. -/
theorem avs_only_nonstateful_positive_ratio_witness :
    (true = true → ∃ m, buildArch .custom seqAudioNote true
        ⟨⟨.custom, 1 / 2, 1, 2, 1⟩, ⟨1⟩, ⟨true, ["note"]⟩⟩ true = .ok m ∧
      m.isAVS = false) ∧
    ∀ m, buildArch .custom seqAudioNote true
        ⟨⟨.custom, 1 / 2, 1, 2, 1⟩, ⟨1⟩, ⟨true, ["note"]⟩⟩ true = .ok m →
      m.isAVS = true → true = false ∧ 0 < (1 / 2 : ℚ) :=
  avs_only_nonstateful_positive_ratio .custom seqAudioNote true true
    ⟨⟨.custom, 1 / 2, 1, 2, 1⟩, ⟨1⟩, ⟨true, ["note"]⟩⟩ (by norm_num)

/-- C6: whenever the vocabulary artifact file is absent, constructing the AVS
trainer model raises the missing-vocabulary error at construction time
(`AVSModel.__init__`), and consequently no successfully built model is an
`AVSModel` — so no training step of an AVS trainer can ever start, let alone
fail mid-training. -/
theorem missing_vocabulary_fails_at_construction (cfg : Config)
    (h : cfg.dataset.action_word_model_exists = false) :
    (∀ ins outs bs, mkAVSModel cfg ins outs bs = .error .missingVocabulary) ∧
    ∀ a seq st uam m, buildArch a seq st cfg uam = .ok m → m.isAVS = false := by
  refine ⟨fun ins outs bs => ?_, fun a seq st uam m hm => ?_⟩
  · simp [mkAVSModel, h]
  · exact buildArch_ok_no_artifact a seq st cfg uam m h hm

/-- Witness for C6: a concrete config with the artifact absent. -/
theorem missing_vocabulary_fails_at_construction_witness :
    (∀ ins outs bs, mkAVSModel ⟨⟨.baseline, 1, 1, 2, 1⟩, ⟨1⟩, ⟨false, ["note"]⟩⟩
        ins outs bs = .error .missingVocabulary) ∧
    ∀ a seq st uam m, buildArch a seq st
        ⟨⟨.baseline, 1, 1, 2, 1⟩, ⟨1⟩, ⟨false, ["note"]⟩⟩ uam = .ok m →
      m.isAVS = false :=
  missing_vocabulary_fails_at_construction
    ⟨⟨.baseline, 1, 1, 2, 1⟩, ⟨1⟩, ⟨false, ["note"]⟩⟩ rfl

/-- C3 (spec-modelled for the recurrent dynamics): on the spec's example
sequence (input `audio` of width 4, categorical output `note` of width 12),
the transplanted stateful model — built as `save_model` builds it, with
`config.training.batch_size` set to 1 and `stateful=True` — has exactly the
named inputs and outputs of the original batch model; and for a recurrent
cell carrying the (shared, copied) weights, feeding one fixed single-step
input `T` successive times with no state reset produces outputs element-wise
equal to one call of the batch model on that input repeated `T` times inside
a single window. -/
theorem transplant_preserves_io_and_is_causal (cfg : Config) (m : BuiltModel)
    {σ ι ω : Type} (cell : RecCell σ ι ω) (T : ℕ) (x : ι)
    (h : buildArch .baseline seqAudioNote false cfg false = .ok m) :
    (∃ sm, buildArch .baseline seqAudioNote true (withTrainingBatchSize1 cfg)
        true = .ok sm ∧
      sm.inputNames = m.inputNames ∧ sm.outputNames = m.outputNames) ∧
    (statefulFeed cell cell.init T x).2 = batchCall cell (List.replicate T x)
    := by
  constructor
  · obtain ⟨hin, hout⟩ := baseline_ok_names seqAudioNote false cfg m h
    refine ⟨⟨seqAudioNote.x_cols, outputCols seqAudioNote, false,
      some (withTrainingBatchSize1 cfg).generation.batch_size⟩, ?_, ?_, ?_⟩
    · simp [buildArch, baseline_model]
    · simp [hin]
    · simp [hout]
  · rw [batchCall, statefulFeed_eq_runWindow]

/-- Witness for C3: a concrete configuration (proxy ratio 0, so the original
build is the plain model), a concrete counting cell, and three repetitions of
the input. -/
theorem transplant_preserves_io_and_is_causal_witness :
    (∃ sm, buildArch .baseline seqAudioNote true
        (withTrainingBatchSize1 ⟨⟨.baseline, 0, 4, 2, 1⟩, ⟨1⟩, ⟨false, ["note"]⟩⟩)
        true = .ok sm ∧
      sm.inputNames = (⟨["audio"], ["note"], false, none⟩ : BuiltModel).inputNames ∧
      sm.outputNames = (⟨["audio"], ["note"], false, none⟩ : BuiltModel).outputNames) ∧
    (statefulFeed (⟨0, fun s x => (s + x, s * 2)⟩ : RecCell ℕ ℕ ℕ)
        (⟨0, fun s x => (s + x, s * 2)⟩ : RecCell ℕ ℕ ℕ).init 3 1).2 =
      batchCall (⟨0, fun s x => (s + x, s * 2)⟩ : RecCell ℕ ℕ ℕ)
        (List.replicate 3 1) :=
  transplant_preserves_io_and_is_causal
    ⟨⟨.baseline, 0, 4, 2, 1⟩, ⟨1⟩, ⟨false, ["note"]⟩⟩
    ⟨["audio"], ["note"], false, none⟩
    ⟨0, fun s x => (s + x, s * 2)⟩ 3 1 rfl

/-- C4 counterexample: `save_model` does not construct the single-step
generator with fixed batch size 1 — it assigns `config.training.batch_size = 1`
but the builders read `config.generation.batch_size` for the stateful input
layers, so a config with generation batch size 2 yields a stateful model of
batch size 2. -/
theorem save_model_stateful_batch_size_not_one :
    (save_model baseline_weight_shapes ⟨["audio"], ["note"], []⟩ seqAudioNote
        ⟨⟨.baseline, 0, 16, 2, 1⟩, ⟨2⟩, ⟨false, ["note"]⟩⟩).statefulModel =
      .ok ⟨["audio"], ["note"], false, some 2⟩ ∧
    (some 2 : Option ℕ) ≠ some 1 :=
  ⟨rfl, by simp⟩

/-- C4 (amended): for the baseline architecture, `save_model` resets the
precision policy to float32, produces the plain metrics-stripped artifact and
the stateful causal model as two separate objects, builds the stateful model
with fixed batch size equal to the *generation* batch size of the config (it
sets `config.training.batch_size = 1`, a field the stateful builder does not
read), and — the weight shapes of the baseline architecture being independent
of the stateful flag and of any batch size — copies every weight tensor of
the trained model into the stateful model (position by position, which is
name by name for the identically-built graphs), succeeding whenever the
trained model's shapes are the baseline shapes for the same sequence and
config. -/
theorem save_model_amended_behavior (model : TrainedModel)
    (seq : BeatmapSequence) (cfg : Config)
    (harch : cfg.training.model_type = .baseline)
    (hw : model.weights.map Tensor.shape = baseline_weight_shapes seq cfg) :
    (save_model baseline_weight_shapes model seq cfg).policyAfter = .float32 ∧
    (save_model baseline_weight_shapes model seq cfg).plainModel =
      ⟨model.inputNames, model.outputNames, false⟩ ∧
    (save_model baseline_weight_shapes model seq cfg).statefulModel =
      .ok ⟨seq.x_cols, outputCols seq, false, some cfg.generation.batch_size⟩ ∧
    (save_model baseline_weight_shapes model seq cfg).copiedWeights =
      .ok model.weights := by
  refine ⟨rfl, rfl, ?_, ?_⟩
  · show buildArch (withTrainingBatchSize1 cfg).training.model_type seq true
      (withTrainingBatchSize1 cfg) true = _
    have : (withTrainingBatchSize1 cfg).training.model_type = Arch.baseline :=
      harch
    rw [this]
    simp [buildArch, baseline_model, withTrainingBatchSize1]
  · show set_weights (baseline_weight_shapes seq (withTrainingBatchSize1 cfg))
      model.weights = _
    rw [baseline_weight_shapes_batch_size_invariant]
    simp [set_weights, hw]

/-- Witness for C4: a concrete trained baseline model (one LSTM of 2 units
over the width-4 input, a width-12 output head) transplanted under a config
with generation batch size 7. -/
theorem save_model_amended_behavior_witness :
    (save_model baseline_weight_shapes
        ⟨["audio"], ["note"],
          [⟨[4, 8], []⟩, ⟨[2, 8], []⟩, ⟨[8], []⟩, ⟨[2, 12], []⟩, ⟨[12], []⟩]⟩
        seqAudioNote
        ⟨⟨.baseline, 0, 16, 2, 1⟩, ⟨7⟩, ⟨true, ["note"]⟩⟩).policyAfter =
      .float32 ∧
    (save_model baseline_weight_shapes
        ⟨["audio"], ["note"],
          [⟨[4, 8], []⟩, ⟨[2, 8], []⟩, ⟨[8], []⟩, ⟨[2, 12], []⟩, ⟨[12], []⟩]⟩
        seqAudioNote
        ⟨⟨.baseline, 0, 16, 2, 1⟩, ⟨7⟩, ⟨true, ["note"]⟩⟩).plainModel =
      ⟨["audio"], ["note"], false⟩ ∧
    (save_model baseline_weight_shapes
        ⟨["audio"], ["note"],
          [⟨[4, 8], []⟩, ⟨[2, 8], []⟩, ⟨[8], []⟩, ⟨[2, 12], []⟩, ⟨[12], []⟩]⟩
        seqAudioNote
        ⟨⟨.baseline, 0, 16, 2, 1⟩, ⟨7⟩, ⟨true, ["note"]⟩⟩).statefulModel =
      .ok ⟨seqAudioNote.x_cols, outputCols seqAudioNote, false, some 7⟩ ∧
    (save_model baseline_weight_shapes
        ⟨["audio"], ["note"],
          [⟨[4, 8], []⟩, ⟨[2, 8], []⟩, ⟨[8], []⟩, ⟨[2, 12], []⟩, ⟨[12], []⟩]⟩
        seqAudioNote
        ⟨⟨.baseline, 0, 16, 2, 1⟩, ⟨7⟩, ⟨true, ["note"]⟩⟩).copiedWeights =
      .ok [⟨[4, 8], []⟩, ⟨[2, 8], []⟩, ⟨[8], []⟩, ⟨[2, 12], []⟩, ⟨[12], []⟩] :=
  save_model_amended_behavior
    ⟨["audio"], ["note"],
      [⟨[4, 8], []⟩, ⟨[2, 8], []⟩, ⟨[8], []⟩, ⟨[2, 12], []⟩, ⟨[12], []⟩]⟩
    seqAudioNote ⟨⟨.baseline, 0, 16, 2, 1⟩, ⟨7⟩, ⟨true, ["note"]⟩⟩ rfl (by decide)

theorem flatten_length_of_forall_length {β : Type} (l : List (List β)) (k : ℕ)
    (h : ∀ r ∈ l, r.length = k) : l.flatten.length = l.length * k := by
  induction l with
  | nil => simp
  | cons a t ih =>
    have ha := h a (List.mem_cons_self a t)
    have ht := ih fun r hr => h r (List.mem_cons_of_mem a hr)
    simp only [List.flatten_cons, List.length_append, List.length_cons, ha, ht]
    ring

/-- C2 (amended): for every token matrix of `N` rows and proxy ratio
`r ∈ [0, 1]`, exactly the first `min(⌊r·N⌋ + 1, N)` rows — not `r·N` — are
passed through the external lookup, and (the lookup succeeding) the result
consists of exactly those rows' vectors, one per flattened token: the
remaining rows are dropped from the result, not zero-filled.  With `r = 1`
the taken prefix is the whole matrix, so every row goes through the
lookup. -/
theorem word2word_vec_take_lookup {α : Type} [Zero α] (ratio : ℚ) (D : ℕ)
    (lookup : String → Option (List α)) (word : List (List String))
    (h0 : 0 ≤ ratio) (h1 : ratio ≤ 1)
    (hall : ∀ t ∈ (word.take ((⌊ratio * (word.length : ℚ)⌋).toNat + 1)).flatten,
      (lookup t).isSome) :
    word2word_vec ratio D lookup word =
      (word.take ((⌊ratio * (word.length : ℚ)⌋).toNat + 1)).flatten.map
        (fun t => (lookup t).getD []) ∧
    (ratio = 1 →
      word.take ((⌊ratio * (word.length : ℚ)⌋).toNat + 1) = word) := by
  constructor
  · unfold word2word_vec
    have hc : (word.take ((⌊ratio * (word.length : ℚ)⌋).toNat + 1)).flatten.all
        (fun t => (lookup t).isSome) = true :=
      List.all_eq_true.mpr fun t ht => hall t ht
    simp [hc]
  · rintro rfl
    apply List.take_of_length_le
    simp

/-- Witness for C2: ratio 1 over a two-row matrix with a total lookup — both
rows are looked up and the result is their two vectors. -/
theorem word2word_vec_take_lookup_witness :
    (word2word_vec (1 : ℚ) 1 (fun _ => some [(5 : ℚ)]) [["a"], ["b"]] =
      ([["a"], ["b"]].take
          ((⌊(1 : ℚ) * (([["a"], ["b"]] : List (List String)).length : ℚ)⌋).toNat
            + 1)).flatten.map
        (fun t => ((fun _ => some [(5 : ℚ)]) t).getD [])) ∧
    ((1 : ℚ) = 1 →
      [["a"], ["b"]].take
          ((⌊(1 : ℚ) * (([["a"], ["b"]] : List (List String)).length : ℚ)⌋).toNat
            + 1) = [["a"], ["b"]]) :=
  word2word_vec_take_lookup (1 : ℚ) 1 (fun _ => some [(5 : ℚ)]) [["a"], ["b"]]
    (by norm_num) (le_refl 1) (fun t _ => rfl)

/-- C2 counterexample: with proxy ratio 0 and a two-row matrix, the claim as
stated predicts that no row is looked up and both rows receive a zero
vector (`[[0], [0]]`); the code computes `use_len = int(0·2) + 1 = 1`, looks
the first row up, and returns only its vector `[[1]]`. -/
theorem word2word_vec_ratio_zero_not_all_zero :
    word2word_vec (0 : ℚ) 1 (fun _ => some [(1 : ℚ)]) [["a"], ["b"]] =
      [[(1 : ℚ)]] ∧
    ([[(1 : ℚ)]] : List (List ℚ)) ≠ [[(0 : ℚ)], [(0 : ℚ)]] := by
  refine ⟨?_, by simp⟩
  simp [word2word_vec]

/-- C8: when the external lookup fails on any looked-up token (gensim's
`KeyError` on a batch lookup), `word2word_vec` returns — instead of
raising — a matrix of zero vectors of the embedding dimensionality `D`, with
exactly one row per looked-up (flattened) token. -/
theorem word2word_vec_fallback_zeros {α : Type} [Zero α] (ratio : ℚ) (D k : ℕ)
    (lookup : String → Option (List α)) (word : List (List String))
    (hrect : ∀ r ∈ word, r.length = k)
    (hfail : ∃ t ∈ (word.take ((⌊ratio * (word.length : ℚ)⌋).toNat + 1)).flatten,
      lookup t = none) :
    word2word_vec ratio D lookup word =
      List.replicate
        ((word.take ((⌊ratio * (word.length : ℚ)⌋).toNat + 1)).flatten.length)
        (List.replicate D (0 : α)) := by
  obtain ⟨t, ht, hnone⟩ := hfail
  unfold word2word_vec
  have hc : ¬((word.take ((⌊ratio * (word.length : ℚ)⌋).toNat + 1)).flatten.all
      (fun t => (lookup t).isSome) = true) := by
    intro hall
    have := List.all_eq_true.mp hall t ht
    rw [hnone] at this
    cases this
  rw [if_neg hc]
  have hsub : ∀ r ∈ word.take ((⌊ratio * (word.length : ℚ)⌋).toNat + 1),
      r.length = k := fun r hr => hrect r (List.mem_of_mem_take hr)
  have hne : word.take ((⌊ratio * (word.length : ℚ)⌋).toNat + 1) ≠ [] := by
    intro h0
    rw [h0] at ht
    cases ht
  have hflat := flatten_length_of_forall_length
    (word.take ((⌊ratio * (word.length : ℚ)⌋).toNat + 1)) k hsub
  have hhead : ((word.take ((⌊ratio * (word.length : ℚ)⌋).toNat + 1)).headD
      []).length = k := by
    rcases hne' : word.take ((⌊ratio * (word.length : ℚ)⌋).toNat + 1) with
      _ | ⟨a, l⟩
    · exact absurd hne' hne
    · have : a ∈ word.take ((⌊ratio * (word.length : ℚ)⌋).toNat + 1) := by
        rw [hne']
        exact List.mem_cons_self a l
      simpa using hsub a this
  rw [hflat, hhead]

/-- Witness for C8: a failing lookup over a one-row, one-token matrix with
embedding width 2 produces the single zero row `[[0, 0]]`. -/
theorem word2word_vec_fallback_zeros_witness :
    word2word_vec (0 : ℚ) 2 (fun _ => (none : Option (List ℚ))) [["x"]] =
      List.replicate
        (([["x"]].take
            ((⌊(0 : ℚ) * (([["x"]] : List (List String)).length : ℚ)⌋).toNat
              + 1)).flatten.length)
        (List.replicate 2 (0 : ℚ)) :=
  word2word_vec_fallback_zeros (0 : ℚ) 2 1 (fun _ => none) [["x"]]
    (by decide) ⟨"x", by simp, rfl⟩

/-- C9: the per-step metric update derives a representation only when it is
absent from the target dictionary and never overwrites one that is present
there: `word_id` changes (on either dictionary) only when the target has
`word_vec` but not `word_id`, `word_vec` changes only when the target has
`word_id` (or its keys span all declared beat elements) and `word_vec` is
absent, and a representation present in the target is returned unchanged. -/
theorem update_metrics_derives_only_missing (env : AVSEnv) (train : Bool)
    (y y_pred : StepDict) :
    ((update_metrics env train y y_pred).y.word_id ≠ y.word_id →
      y.word_vec.isSome = true ∧ y.word_id = none) ∧
    ((update_metrics env train y y_pred).y.word_vec ≠ y.word_vec →
      (y.word_id.isSome = true ∨
        spansBeatElements env.beat_elements y = true) ∧ y.word_vec = none) ∧
    (y.word_id.isSome = true →
      (update_metrics env train y y_pred).y.word_id = y.word_id) ∧
    (y.word_vec.isSome = true →
      (update_metrics env train y y_pred).y.word_vec = y.word_vec) ∧
    ((update_metrics env train y y_pred).y_pred.word_id ≠ y_pred.word_id →
      y.word_vec.isSome = true ∧ y.word_id = none) ∧
    ((update_metrics env train y y_pred).y_pred.word_vec ≠ y_pred.word_vec →
      (y.word_id.isSome = true ∨
        spansBeatElements env.beat_elements y = true) ∧ y.word_vec = none)
    := by
  cases hv : y.word_vec <;> cases hi : y.word_id <;>
    simp only [update_metrics, hv, hi, Option.isSome_none, Option.isSome_some,
      Bool.not_true, Bool.not_false, Bool.false_and, Bool.true_and,
      Bool.and_true, Bool.and_false, Bool.false_or, Bool.true_or,
      if_true, if_false, Bool.false_eq_true, ne_eq]
  · by_cases hs : (spansBeatElements env.beat_elements y && !train) = true
    · obtain ⟨hsp, htr⟩ := (Bool.and_eq_true _ _).mp hs
      have htr' : train = false := by simpa using htr
      simp [hs, hsp, hi, hv, htr']
    · simp only [Bool.not_eq_true] at hs
      simp [hs, hi, hv]
  · simp
  · simp
  · simp

/-- Witness for C9: a concrete step whose target carries only `word_vec`, so
the first derivation branch fires. -/
theorem update_metrics_derives_only_missing_witness :
    ((update_metrics ⟨[], 0, 0, ["b"], fun _ => none, fun _ => []⟩ false
        ⟨none, some (.t2 []), []⟩ ⟨none, some (.t2 []), []⟩).y.word_id ≠
        (⟨none, some (.t2 []), []⟩ : StepDict).word_id →
      (⟨none, some (.t2 []), []⟩ : StepDict).word_vec.isSome = true ∧
        (⟨none, some (.t2 []), []⟩ : StepDict).word_id = none) ∧
    ((update_metrics ⟨[], 0, 0, ["b"], fun _ => none, fun _ => []⟩ false
        ⟨none, some (.t2 []), []⟩ ⟨none, some (.t2 []), []⟩).y.word_vec ≠
        (⟨none, some (.t2 []), []⟩ : StepDict).word_vec →
      ((⟨none, some (.t2 []), []⟩ : StepDict).word_id.isSome = true ∨
        spansBeatElements ["b"] ⟨none, some (.t2 []), []⟩ = true) ∧
        (⟨none, some (.t2 []), []⟩ : StepDict).word_vec = none) ∧
    ((⟨none, some (.t2 []), []⟩ : StepDict).word_id.isSome = true →
      (update_metrics ⟨[], 0, 0, ["b"], fun _ => none, fun _ => []⟩ false
        ⟨none, some (.t2 []), []⟩ ⟨none, some (.t2 []), []⟩).y.word_id =
        (⟨none, some (.t2 []), []⟩ : StepDict).word_id) ∧
    ((⟨none, some (.t2 []), []⟩ : StepDict).word_vec.isSome = true →
      (update_metrics ⟨[], 0, 0, ["b"], fun _ => none, fun _ => []⟩ false
        ⟨none, some (.t2 []), []⟩ ⟨none, some (.t2 []), []⟩).y.word_vec =
        (⟨none, some (.t2 []), []⟩ : StepDict).word_vec) ∧
    ((update_metrics ⟨[], 0, 0, ["b"], fun _ => none, fun _ => []⟩ false
        ⟨none, some (.t2 []), []⟩ ⟨none, some (.t2 []), []⟩).y_pred.word_id ≠
        (⟨none, some (.t2 []), []⟩ : StepDict).word_id →
      (⟨none, some (.t2 []), []⟩ : StepDict).word_vec.isSome = true ∧
        (⟨none, some (.t2 []), []⟩ : StepDict).word_id = none) ∧
    ((update_metrics ⟨[], 0, 0, ["b"], fun _ => none, fun _ => []⟩ false
        ⟨none, some (.t2 []), []⟩ ⟨none, some (.t2 []), []⟩).y_pred.word_vec ≠
        (⟨none, some (.t2 []), []⟩ : StepDict).word_vec →
      ((⟨none, some (.t2 []), []⟩ : StepDict).word_id.isSome = true ∨
        spansBeatElements ["b"] ⟨none, some (.t2 []), []⟩ = true) ∧
        (⟨none, some (.t2 []), []⟩ : StepDict).word_vec = none) :=
  update_metrics_derives_only_missing
    ⟨[], 0, 0, ["b"], fun _ => none, fun _ => []⟩ false
    ⟨none, some (.t2 []), []⟩ ⟨none, some (.t2 []), []⟩

/-- C1 (amended): whenever the target dictionary contains `word_vec` but not
`word_id`, the trainer derives `word_id` for both target and prediction as
the full cosine-similarity score matrix of the flattened vectors against the
vocabulary table (`word_vec2word ∘ drop_batch`) — the top-1 index is its
row-wise argmax, but what is stored is the score matrix, not the bare
index. -/
theorem update_metrics_word_id_is_similarity_matrix (env : AVSEnv)
    (train : Bool) (y y_pred : StepDict) (wv pv : TVal)
    (hy : y.word_vec = some wv) (hyi : y.word_id = none)
    (hp : y_pred.word_vec = some pv) :
    (update_metrics env train y y_pred).y.word_id =
      some (.t2 (word_vec2word env.wvs env.D (dropBatch wv))) ∧
    (update_metrics env train y y_pred).y_pred.word_id =
      some (.t2 (word_vec2word env.wvs env.D (dropBatch pv))) := by
  simp [update_metrics, hy, hyi, hp]

/-- Witness for C1: a concrete target/prediction pair carrying one
word vector, on the two-word vocabulary `[[1,0],[0,1]]`. -/
theorem update_metrics_word_id_is_similarity_matrix_witness :
    (update_metrics ⟨[[1, 0], [0, 1]], 2, 0, ["b"], fun _ => none, fun _ => []⟩
        false ⟨none, some (.t2 [[3, 4]]), []⟩
        ⟨none, some (.t2 [[3, 4]]), []⟩).y.word_id =
      some (.t2 (word_vec2word [[1, 0], [0, 1]] 2
        (dropBatch (.t2 [[3, 4]])))) ∧
    (update_metrics ⟨[[1, 0], [0, 1]], 2, 0, ["b"], fun _ => none, fun _ => []⟩
        false ⟨none, some (.t2 [[3, 4]]), []⟩
        ⟨none, some (.t2 [[3, 4]]), []⟩).y_pred.word_id =
      some (.t2 (word_vec2word [[1, 0], [0, 1]] 2
        (dropBatch (.t2 [[3, 4]])))) :=
  update_metrics_word_id_is_similarity_matrix
    ⟨[[1, 0], [0, 1]], 2, 0, ["b"], fun _ => none, fun _ => []⟩ false
    ⟨none, some (.t2 [[3, 4]]), []⟩ ⟨none, some (.t2 [[3, 4]]), []⟩
    (.t2 [[3, 4]]) (.t2 [[3, 4]]) rfl rfl rfl

@[simp] theorem dot_nil_left (l : List ℝ) : dot [] l = 0 := rfl

@[simp] theorem dot_nil_right (l : List ℝ) : dot l [] = 0 := by
  cases l <;> rfl

@[simp] theorem dot_cons_cons (a b : ℝ) (as bs : List ℝ) :
    dot (a :: as) (b :: bs) = a * b + dot as bs := rfl

theorem l2normalize_of_sumSq_zero {v : List ℝ} (h : sumSq v = 0) :
    l2normalize v = v := by
  unfold l2normalize
  rw [if_pos h]

theorem l2normalize_eq_map_div {v : List ℝ} {c : ℝ} (hc : 0 < c)
    (h : sumSq v = c ^ 2) : l2normalize v = v.map fun x => x / c := by
  have hne : sumSq v ≠ 0 := by
    rw [h]
    exact pow_ne_zero 2 hc.ne'
  unfold l2normalize
  rw [if_neg hne, h, Real.sqrt_sq hc.le]

theorem l2normalize_34 : l2normalize [(3 : ℝ), 4] = [3 / 5, 4 / 5] := by
  rw [l2normalize_eq_map_div (c := 5) (by norm_num) (by norm_num [sumSq])]
  norm_num

theorem l2normalize_00 : l2normalize [(0 : ℝ), 0] = [0, 0] :=
  l2normalize_of_sumSq_zero (by norm_num [sumSq])

theorem l2normalize_10 : l2normalize [(1 : ℝ), 0] = [1, 0] := by
  rw [l2normalize_eq_map_div (c := 1) (by norm_num) (by norm_num [sumSq])]
  norm_num

theorem l2normalize_01 : l2normalize [(0 : ℝ), 1] = [0, 1] := by
  rw [l2normalize_eq_map_div (c := 1) (by norm_num) (by norm_num [sumSq])]
  norm_num

/-- C1 counterexample: on the vocabulary `[[1,0],[0,1]]` and the target
vector `[3,4]`, the derived `word_id` is the cosine-similarity score row
`[0, 0, 3/5, 4/5]` — whose argmax 3 is the top-1 index — and not the top-1
index in its categorical (one-hot) encoding: the row differs from every
one-hot row over the four vocabulary entries. -/
theorem update_metrics_word_id_not_top1_index :
    (update_metrics ⟨[[1, 0], [0, 1]], 2, 0, ["b"], fun _ => none, fun _ => []⟩
        false ⟨none, some (.t2 [[3, 4]]), []⟩
        ⟨none, some (.t2 [[3, 4]]), []⟩).y.word_id =
      some (.t2 [[0, 0, 3 / 5, 4 / 5]]) ∧
    argmaxIdx [0, 0, 3 / 5, 4 / 5] = 3 ∧
    [(0 : ℝ), 0, 3 / 5, 4 / 5] ≠ oneHot 4 0 ∧
    [(0 : ℝ), 0, 3 / 5, 4 / 5] ≠ oneHot 4 1 ∧
    [(0 : ℝ), 0, 3 / 5, 4 / 5] ≠ oneHot 4 2 ∧
    [(0 : ℝ), 0, 3 / 5, 4 / 5] ≠ oneHot 4 3 := by
  refine ⟨?_, ?_, ?_, ?_, ?_, ?_⟩
  · simp only [update_metrics, Option.isSome_some, Option.isSome_none,
      Bool.not_false, Bool.and_self, if_true, Option.getD_some, dropBatch]
    simp [word_vec2word, avsEmbeddings, List.replicate, l2normalize_34,
      l2normalize_00, l2normalize_10, l2normalize_01]
  · norm_num [argmaxIdx, listMax]
  · norm_num [oneHot, List.range_succ]
  · norm_num [oneHot, List.range_succ]
  · norm_num [oneHot, List.range_succ]
  · norm_num [oneHot, List.range_succ]

theorem dot_self_nonneg (v : List ℝ) : 0 ≤ dot v v := by
  induction v with
  | nil => simp
  | cons a t ih => simpa using add_nonneg (mul_self_nonneg a) ih

theorem eq_replicate_zero_of_dot_self_eq_zero {v : List ℝ}
    (h : dot v v = 0) : v = List.replicate v.length 0 := by
  induction v with
  | nil => rfl
  | cons a t ih =>
    rw [dot_cons_cons] at h
    have ha : a * a = 0 ∧ dot t t = 0 :=
      (add_eq_zero_iff_of_nonneg (mul_self_nonneg a) (dot_self_nonneg t)).mp h
    have ha0 : a = 0 := by
      have := mul_self_eq_zero.mp ha.1
      exact this
    rw [List.length_cons, List.replicate_succ, ha0]
    exact congrArg (List.cons 0) (ih ha.2)

theorem dot_replicate_zero_left (n : ℕ) (w : List ℝ) :
    dot (List.replicate n 0) w = 0 := by
  induction n generalizing w with
  | zero => simp
  | succ k ih =>
    cases w with
    | nil => simp
    | cons b bs => simp [List.replicate_succ, ih]

theorem dot_replicate_zero_right (v : List ℝ) (n : ℕ) :
    dot v (List.replicate n 0) = 0 := by
  induction v generalizing n with
  | nil => simp
  | cons a as ih =>
    cases n with
    | zero => simp
    | succ k => simp [List.replicate_succ, ih]

theorem length_l2normalize (v : List ℝ) : (l2normalize v).length = v.length := by
  unfold l2normalize
  split <;> simp

theorem dot_map_div (c : ℝ) (a b : List ℝ) :
    dot (a.map fun x => x / c) (b.map fun x => x / c) = dot a b / (c * c) := by
  induction a generalizing b with
  | nil => simp
  | cons x as ih =>
    cases b with
    | nil => simp
    | cons y bs =>
      simp only [List.map_cons, dot_cons_cons, ih]
      rw [div_mul_div_comm, div_add_div_same]

theorem sumSq_l2normalize {v : List ℝ} (h : sumSq v ≠ 0) :
    sumSq (l2normalize v) = 1 := by
  have h' : dot v v ≠ 0 := h
  unfold l2normalize sumSq
  rw [if_neg h', dot_map_div, Real.mul_self_sqrt (dot_self_nonneg v),
    div_self h']

theorem dot_zipWith_sub_self {a b : List ℝ} (h : a.length = b.length) :
    dot (List.zipWith (fun x y => x - y) a b)
        (List.zipWith (fun x y => x - y) a b) =
      dot a a - 2 * dot a b + dot b b := by
  induction a generalizing b with
  | nil =>
    cases b with
    | nil => simp
    | cons y bs => cases h
  | cons x as ih =>
    cases b with
    | nil => cases h
    | cons y bs =>
      simp only [List.zipWith_cons_cons, dot_cons_cons]
      rw [ih (by simpa using h)]
      ring

theorem eq_of_zipWith_sub_dot_zero {a b : List ℝ} (h : a.length = b.length)
    (h0 : dot (List.zipWith (fun x y => x - y) a b)
      (List.zipWith (fun x y => x - y) a b) = 0) : a = b := by
  induction a generalizing b with
  | nil =>
    cases b with
    | nil => rfl
    | cons y bs => cases h
  | cons x as ih =>
    cases b with
    | nil => cases h
    | cons y bs =>
      simp only [List.zipWith_cons_cons, dot_cons_cons] at h0
      have hsplit : (x - y) * (x - y) = 0 ∧
          dot (List.zipWith (fun x y => x - y) as bs)
            (List.zipWith (fun x y => x - y) as bs) = 0 :=
        (add_eq_zero_iff_of_nonneg (mul_self_nonneg _)
          (dot_self_nonneg _)).mp h0
      have hxy : x = y := sub_eq_zero.mp (mul_self_eq_zero.mp hsplit.1)
      rw [hxy, ih (by simpa using h) hsplit.2]

theorem dot_le_one_of_unit {u w : List ℝ} (hlen : u.length = w.length)
    (hu : sumSq u = 1) (hw : sumSq w = 1) : dot u w ≤ 1 := by
  have h := dot_zipWith_sub_self hlen
  unfold sumSq at hu hw
  rw [hu, hw] at h
  have h0 := dot_self_nonneg (List.zipWith (fun x y => x - y) u w)
  rw [h] at h0
  linarith

theorem eq_of_unit_dot_eq_one {u w : List ℝ} (hlen : u.length = w.length)
    (hu : sumSq u = 1) (hw : sumSq w = 1) (h1 : dot u w = 1) : u = w := by
  apply eq_of_zipWith_sub_dot_zero hlen
  rw [dot_zipWith_sub_self hlen]
  unfold sumSq at hu hw
  rw [hu, hw, h1]
  ring

theorem le_listMax {x : ℝ} {l : List ℝ} (h : x ∈ l) : x ≤ listMax l := by
  induction l with
  | nil => cases h
  | cons a t ih =>
    cases t with
    | nil =>
      rw [List.mem_singleton.mp h]
      exact le_refl _
    | cons b t' =>
      rcases List.mem_cons.mp h with rfl | hmem
      · exact le_max_left _ _
      · exact le_trans (ih hmem) (le_max_right _ _)

theorem listMax_le {l : List ℝ} {c : ℝ} (hne : l ≠ []) (h : ∀ x ∈ l, x ≤ c) :
    listMax l ≤ c := by
  induction l with
  | nil => exact absurd rfl hne
  | cons a t ih =>
    cases t with
    | nil => exact h a (List.mem_cons_self a [])
    | cons b t' =>
      exact max_le (h a (List.mem_cons_self a _))
        (ih (by simp) fun x hx => h x (List.mem_cons_of_mem a hx))

theorem listMax_eq_of_mem_of_le {l : List ℝ} {b : ℝ} (hb : b ∈ l)
    (h : ∀ x ∈ l, x ≤ b) : listMax l = b :=
  le_antisymm (listMax_le (List.ne_nil_of_mem hb) h) (le_listMax hb)

theorem argmaxIdx_lt_length {l : List ℝ} (h : l ≠ []) :
    argmaxIdx l < l.length := by
  induction l with
  | nil => exact absurd rfl h
  | cons a t ih =>
    cases t with
    | nil => simp [argmaxIdx]
    | cons b t' =>
      by_cases hc : listMax (b :: t') ≤ a
      · simp [argmaxIdx, hc]
      · simp only [argmaxIdx, if_neg hc, List.length_cons]
        exact Nat.succ_lt_succ (ih (by simp))

theorem getD_argmaxIdx {l : List ℝ} (h : l ≠ []) :
    l.getD (argmaxIdx l) 0 = listMax l := by
  induction l with
  | nil => exact absurd rfl h
  | cons a t ih =>
    cases t with
    | nil => rfl
    | cons b t' =>
      by_cases hc : listMax (b :: t') ≤ a
      · simp only [argmaxIdx, if_pos hc, List.getD_cons_zero]
        exact (max_eq_left hc).symm
      · simp only [argmaxIdx, if_neg hc, List.getD_cons_succ]
        rw [ih (by simp)]
        exact (max_eq_right (le_of_not_le hc)).symm

theorem listMax_replicate_zero (n : ℕ) :
    listMax (List.replicate n (0 : ℝ)) = 0 := by
  induction n with
  | zero => rfl
  | succ k ih =>
    cases k with
    | zero => rfl
    | succ m =>
      show max 0 (listMax (0 :: List.replicate m 0)) = 0
      rw [← List.replicate_succ, ih, max_self]

theorem argmaxIdx_replicate_zero (n : ℕ) :
    argmaxIdx (List.replicate n (0 : ℝ)) = 0 := by
  cases n with
  | zero => rfl
  | succ k =>
    cases k with
    | zero => rfl
    | succ m =>
      have hm : listMax (0 :: List.replicate m 0) = 0 := by
        rw [← List.replicate_succ]
        exact listMax_replicate_zero (m + 1)
      show argmaxIdx (0 :: 0 :: List.replicate m 0) = 0
      simp [argmaxIdx, hm]

theorem avsEmbeddings_rows_length {wvs : List (List ℝ)} {D : ℕ}
    (hD : ∀ r ∈ wvs, r.length = D) :
    ∀ r ∈ avsEmbeddings wvs D, r.length = D := by
  intro r hr
  rcases List.mem_append.mp hr with h | h
  · rw [List.eq_of_mem_replicate h]
    simp
  · exact hD r h

theorem argmax_lookup_self (E : List (List ℝ)) (D i : ℕ)
    (hrows : ∀ r ∈ E, r.length = D)
    (hE0 : E.getD 0 [] = List.replicate D 0)
    (hi : i < E.length)
    (huniq : ∀ j, j < E.length →
      l2normalize (E.getD j []) = l2normalize (E.getD i []) →
      E.getD j [] = E.getD i []) :
    E.getD (argmaxIdx (E.map fun e =>
      dot (l2normalize (E.getD i [])) (l2normalize e))) [] = E.getD i [] := by
  have hvmem : E.getD i [] ∈ E := by
    rw [List.getD_eq_getElem E [] hi]
    exact List.getElem_mem hi
  have hvlen : (E.getD i []).length = D := hrows _ hvmem
  have hLlen : (E.map fun e =>
      dot (l2normalize (E.getD i [])) (l2normalize e)).length = E.length :=
    List.length_map E _
  have hElen : 0 < E.length := Nat.pos_of_ne_zero fun h0 => by
    rw [h0] at hi
    exact Nat.not_lt_zero i hi
  have hLne : (E.map fun e =>
      dot (l2normalize (E.getD i [])) (l2normalize e)) ≠ [] := by
    intro h0
    rw [h0] at hLlen
    rw [← hLlen] at hElen
    exact Nat.lt_irrefl 0 hElen
  have hLget : ∀ j, (hj : j < E.length) →
      (E.map fun e => dot (l2normalize (E.getD i []))
        (l2normalize e)).getD j 0 =
      dot (l2normalize (E.getD i [])) (l2normalize (E.getD j [])) := by
    intro j hj
    rw [List.getD_eq_getElem _ 0 (by rw [hLlen]; exact hj),
      List.getElem_map, List.getD_eq_getElem E [] hj]
  by_cases hz : sumSq (E.getD i []) = 0
  · have hvz : E.getD i [] = List.replicate (E.getD i []).length 0 :=
      eq_replicate_zero_of_dot_self_eq_zero hz
    have hLzero : (E.map fun e =>
        dot (l2normalize (E.getD i [])) (l2normalize e)) =
        List.replicate E.length 0 := by
      rw [← hLlen]
      apply List.eq_replicate_of_mem
      intro b hb
      obtain ⟨e, he, rfl⟩ := List.mem_map.mp hb
      rw [l2normalize_of_sumSq_zero hz]
      calc dot (E.getD i []) (l2normalize e)
          = dot (List.replicate (E.getD i []).length 0) (l2normalize e) := by
            rw [← hvz]
        _ = 0 := dot_replicate_zero_left _ _
    rw [hLzero, argmaxIdx_replicate_zero, hE0, hvz, hvlen]
  · have hu1 : sumSq (l2normalize (E.getD i [])) = 1 := sumSq_l2normalize hz
    have hbound : ∀ x ∈ (E.map fun e =>
        dot (l2normalize (E.getD i [])) (l2normalize e)), x ≤ 1 := by
      intro x hx
      obtain ⟨e, he, rfl⟩ := List.mem_map.mp hx
      by_cases hze : sumSq e = 0
      · have hez : e = List.replicate e.length 0 :=
          eq_replicate_zero_of_dot_self_eq_zero hze
        rw [l2normalize_of_sumSq_zero hze]
        calc dot (l2normalize (E.getD i [])) e
            = dot (l2normalize (E.getD i []))
                (List.replicate e.length 0) := by rw [← hez]
          _ = 0 := dot_replicate_zero_right _ _
          _ ≤ 1 := by norm_num
      · exact dot_le_one_of_unit
          (by rw [length_l2normalize, length_l2normalize, hvlen, hrows e he])
          hu1 (sumSq_l2normalize hze)
    have hvi : (E.map fun e =>
        dot (l2normalize (E.getD i [])) (l2normalize e)).getD i 0 = 1 := by
      rw [hLget i hi]
      exact hu1
    have hmem1 : (1 : ℝ) ∈ (E.map fun e =>
        dot (l2normalize (E.getD i [])) (l2normalize e)) := by
      have hm : (E.map fun e =>
          dot (l2normalize (E.getD i [])) (l2normalize e)).getD i 0 ∈
          (E.map fun e =>
            dot (l2normalize (E.getD i [])) (l2normalize e)) := by
        rw [List.getD_eq_getElem _ 0 (by rw [hLlen]; exact hi)]
        exact List.getElem_mem _
      rwa [hvi] at hm
    have hmax : listMax (E.map fun e =>
        dot (l2normalize (E.getD i [])) (l2normalize e)) = 1 :=
      listMax_eq_of_mem_of_le hmem1 hbound
    have hjlt : argmaxIdx (E.map fun e =>
        dot (l2normalize (E.getD i [])) (l2normalize e)) <
        (E.map fun e =>
          dot (l2normalize (E.getD i [])) (l2normalize e)).length :=
      argmaxIdx_lt_length hLne
    have hjlt' : argmaxIdx (E.map fun e =>
        dot (l2normalize (E.getD i [])) (l2normalize e)) < E.length := by
      rwa [hLlen] at hjlt
    have hval : (E.map fun e =>
        dot (l2normalize (E.getD i [])) (l2normalize e)).getD
        (argmaxIdx (E.map fun e =>
          dot (l2normalize (E.getD i [])) (l2normalize e))) 0 = 1 := by
      rw [getD_argmaxIdx hLne, hmax]
    rw [hLget _ hjlt'] at hval
    have he'mem : E.getD (argmaxIdx (E.map fun e =>
        dot (l2normalize (E.getD i [])) (l2normalize e))) [] ∈ E := by
      rw [List.getD_eq_getElem E [] hjlt']
      exact List.getElem_mem _
    by_cases hze : sumSq (E.getD (argmaxIdx (E.map fun e =>
        dot (l2normalize (E.getD i [])) (l2normalize e))) []) = 0
    · exfalso
      have hez := eq_replicate_zero_of_dot_self_eq_zero hze
      rw [l2normalize_of_sumSq_zero hze] at hval
      rw [hez, dot_replicate_zero_right] at hval
      norm_num at hval
    · have hnorm_eq : l2normalize (E.getD i []) =
          l2normalize (E.getD (argmaxIdx (E.map fun e =>
            dot (l2normalize (E.getD i [])) (l2normalize e))) []) :=
        eq_of_unit_dot_eq_one
          (by rw [length_l2normalize, length_l2normalize, hvlen,
            hrows _ he'mem])
          hu1 (sumSq_l2normalize hze) hval
      exact huniq _ hjlt' hnorm_eq.symm

/-- C5 (amended): for a vocabulary table in which no two distinct rows share
a direction (no row is a positive multiple of another — in particular for
every table whose rows are pairwise distinct unit-or-zero vectors), the
round trip `idsToVectors(vectorsToSimilarity(v).argmax())` returns `v` itself
for every row `v` of the table.  The direction-uniqueness hypothesis is
necessary: the counterexample shows the round trip returning a different
parallel row otherwise. -/
theorem avs_roundtrip_id (wvs : List (List ℝ)) (D i : ℕ)
    (hD : ∀ r ∈ wvs, r.length = D)
    (hi : i < (avsEmbeddings wvs D).length)
    (huniq : ∀ j, j < (avsEmbeddings wvs D).length →
      l2normalize ((avsEmbeddings wvs D).getD j []) =
        l2normalize ((avsEmbeddings wvs D).getD i []) →
      (avsEmbeddings wvs D).getD j [] = (avsEmbeddings wvs D).getD i []) :
    avsRoundtrip wvs D ((avsEmbeddings wvs D).getD i []) =
      (avsEmbeddings wvs D).getD i [] := by
  unfold avsRoundtrip embeddingLookup
  have hrow : (word_vec2word wvs D
      [(avsEmbeddings wvs D).getD i []]).headD [] =
      (avsEmbeddings wvs D).map fun e =>
        dot (l2normalize ((avsEmbeddings wvs D).getD i []))
          (l2normalize e) := by
    simp [word_vec2word]
  rw [hrow]
  exact argmax_lookup_self (avsEmbeddings wvs D) D i
    (avsEmbeddings_rows_length hD) rfl hi huniq

/-- C5 counterexample: with the vocabulary `[[1,0],[2,0]]` (two rows of the
same direction but different magnitude), the round trip applied to the
table row `[2,0]` returns `[1,0]` — cosine similarity is scale-blind and the
argmax resolves the tie at the earlier index — so the round trip is not the
identity on every vocabulary row. -/
theorem avs_roundtrip_not_id :
    avsRoundtrip [[1, 0], [2, 0]] 2 [2, 0] = [1, 0] ∧
    ([(1 : ℝ), 0] : List ℝ) ≠ [2, 0] ∧
    ([(2 : ℝ), 0] : List ℝ) ∈ avsEmbeddings [[1, 0], [2, 0]] 2 := by
  refine ⟨?_, by norm_num, by simp [avsEmbeddings]⟩
  have h20 : l2normalize [(2 : ℝ), 0] = [1, 0] := by
    rw [l2normalize_eq_map_div (c := 2) (by norm_num) (by norm_num [sumSq])]
    norm_num
  unfold avsRoundtrip embeddingLookup
  simp [word_vec2word, avsEmbeddings, List.replicate, h20, l2normalize_10,
    l2normalize_00]
  norm_num [argmaxIdx, listMax]

/-- Witness for C5: on the orthonormal two-word vocabulary `[[1,0],[0,1]]`
(whose rows pairwise differ in direction), the round trip fixes row 2 of the
table, the vector `[1,0]`. -/
theorem avs_roundtrip_id_witness :
    avsRoundtrip [[1, 0], [0, 1]] 2
        ((avsEmbeddings [[1, 0], [0, 1]] 2).getD 2 []) =
      (avsEmbeddings [[1, 0], [0, 1]] 2).getD 2 [] :=
  avs_roundtrip_id [[1, 0], [0, 1]] 2 2
    (by
      intro r hr
      simp only [List.mem_cons, List.mem_singleton] at hr
      rcases hr with rfl | rfl | hr
      · rfl
      · rfl
      · cases hr)
    (by simp [avsEmbeddings])
    (by
      intro j hj hn
      have hj4 : j < 4 := by simpa [avsEmbeddings] using hj
      interval_cases j
      · have hn' : l2normalize [(0 : ℝ), 0] = l2normalize [(1 : ℝ), 0] := hn
        rw [l2normalize_00, l2normalize_10] at hn'
        exact absurd hn' (by norm_num)
      · have hn' : l2normalize [(0 : ℝ), 0] = l2normalize [(1 : ℝ), 0] := hn
        rw [l2normalize_00, l2normalize_10] at hn'
        exact absurd hn' (by norm_num)
      · rfl
      · have hn' : l2normalize [(0 : ℝ), 1] = l2normalize [(1 : ℝ), 0] := hn
        rw [l2normalize_01, l2normalize_10] at hn'
        exact absurd hn' (by norm_num))
